import Mathlib

/-!
Shallow embedding of the conversation-state / continuation-resolution layer of
the Sumi-NextJs repository (`src/app/utils/contactExtractor.ts`, second module
version starting at line 385, plus the name-candidate heuristic of the first
version at lines 109-123; data shapes from `src/app/api/chat/route.ts` and the
Zod schemas).

Modelling conventions:
* JS strings are `String`; JS numbers used as counters/ids are `Int`/`Nat`.
* Optional JS fields checked with `=== undefined` / truthiness are `Option`;
  the `ask_for_more_info` field is a `String` with `""` for "absent", because
  the code only ever uses `!!x` and `x || ''` on it.
* `Date.now()` is an explicit `now : Nat` parameter.
* The external LLM extraction call is a black box: its outcome is an input of
  the per-turn function (`ExtractOutcome`). The secondary summarization call
  is likewise an input (`summaryOracle : String`, covering also its internal
  error fallback string).
* The in-memory `conversationMemories` record is an insertion-ordered
  association list (`Object.keys` preserves string-key insertion order).
* `JSON.stringify` followed by `JSON.parse` on a response is the identity, so
  AI messages store the response value directly.
-/

/-- Mirrors `NoteSchema` (route.ts lines 52-55); `intent` is a string enum. -/
structure NoteSchema where
  note : String
  intent : String
deriving DecidableEq

/-- Mirrors `ValidationSchema` (route.ts lines 57-60). -/
structure ValidationSchema where
  missing_fields : List String
  invalid_fields : List String
deriving DecidableEq

/-- Mirrors `TaskInputSchema` (route.ts lines 62-70). -/
structure TaskInputSchema where
  name : String
  intent : String
  id : String
  type : String
  is_completed : Int
  dueDate : String
  dueDateTime : String
deriving DecidableEq

/-- Mirrors `TaskPairSchema` (route.ts lines 72-74). -/
structure TaskPairSchema where
  input : TaskInputSchema
deriving DecidableEq

/-- Mirrors `AppointmentSchema` (route.ts lines 76-87). The source field
`end` is a Lean keyword and is rendered `endTime` here. -/
structure AppointmentSchema where
  title : String
  description : String
  intent : String
  id : String
  start : String
  endTime : String
  location : String
  type : String
  appointment_type_id : Int
  host_user_id : Option Int
deriving DecidableEq

/-- Mirrors `InputContactSchema` (route.ts lines 89-103). `validations` is
`Option` because the post-processing step guards `if (!inputContact.validations)`. -/
structure InputContactSchema where
  id : String
  first_name : String
  last_name : String
  phone : String
  email : String
  stage : String
  source : String
  intent : String
  operation : String
  notes : List NoteSchema
  tasks : List TaskPairSchema
  appointments : List AppointmentSchema
  validations : Option ValidationSchema
deriving DecidableEq

/-- Mirrors `UpdateContactSchema` (route.ts lines 105-111). -/
structure UpdateContactSchema where
  first_name : Option String
  last_name : Option String
  phone : Option String
  email : Option String
  stage : Option String
deriving DecidableEq

/-- Mirrors `ContactSchema` (route.ts lines 113-117). `approved` is `Option`
because the post-processing step guards `contact.approved === undefined`. -/
structure ContactSchema where
  input_contact : InputContactSchema
  update_contact : UpdateContactSchema
  approved : Option Bool
deriving DecidableEq

/-- Mirrors `ContactExtractionResponse` (route.ts lines 119-123) together with
the `ask_for_more_info` field the extractor reads on it (contactExtractor.ts
lines 520-521, 558); `""` stands for the absent field. -/
structure ContactExtractionResponse where
  contacts : List ContactSchema
  language : String
  skip_to : String
  ask_for_more_info : String
deriving DecidableEq

/-- Disambiguation kinds, from the `disambiguationType` union
(contactExtractor.ts line 408); `null` is `Option.none` at the use site. -/
inductive DisambigType where
  | contact
  | appointment
  | task
  | note
  | other
deriving DecidableEq

/-- Elements of the untyped `disambiguationItems: any[]` array
(contactExtractor.ts line 409): the code stores either the appointments array
or the tasks array of a contact. -/
inductive DisambigItem where
  | appt (a : AppointmentSchema)
  | task (t : TaskPairSchema)
deriving DecidableEq

/-- Entries of `knownContacts` (contactExtractor.ts lines 410-417). -/
structure KnownContact where
  name : String
  firstName : String
  lastName : String
  phone : String
  email : String
  lastSeen : Option Nat
deriving DecidableEq

/-- Mirrors the `lastOperation` record type (contactExtractor.ts lines 418-422). -/
structure LastOperation where
  intent : String
  contactName : String
  timestamp : String
deriving DecidableEq

/-- Mirrors `StructuredContext` (contactExtractor.ts lines 394-423). -/
structure StructuredContext where
  pendingAppointments : List AppointmentSchema
  pendingTasks : List TaskInputSchema
  pendingNotes : List NoteSchema
  hasAskForMoreInfo : Bool
  lastAsk : String
  disambiguationType : Option DisambigType
  disambiguationItems : List DisambigItem
  knownContacts : List KnownContact
  lastOperation : Option LastOperation
deriving DecidableEq

/-- Mirrors the `Partial<StructuredContext>` value produced by
`extractStructuredContext` (contactExtractor.ts lines 515-525): every field is
set except `lastOperation`, which the merge therefore never touches. -/
structure NewContext where
  pendingAppointments : List AppointmentSchema
  pendingTasks : List TaskInputSchema
  pendingNotes : List NoteSchema
  hasAskForMoreInfo : Bool
  lastAsk : String
  disambiguationType : Option DisambigType
  disambiguationItems : List DisambigItem
  knownContacts : List KnownContact
deriving DecidableEq

/-- LangChain message values kept in `recentMessages`; AI messages carry the
stringified response, modelled as the response value itself (JSON round-trip). -/
inductive BaseMsg where
  | human (content : String)
  | ai (content : ContactExtractionResponse)
  | system (content : String)
deriving DecidableEq

/-- Mirrors `ConversationMemory` (contactExtractor.ts lines 426-432). -/
structure ConversationMemory where
  summary : String
  recentMessages : List BaseMsg
  messageCount : Nat
  maxMessages : Nat
  structuredContext : StructuredContext
deriving DecidableEq

/-- The freshly-initialized structured context (contactExtractor.ts lines 494-504). -/
def defaultStructuredContext : StructuredContext :=
  { pendingAppointments := []
    pendingTasks := []
    pendingNotes := []
    hasAskForMoreInfo := false
    lastAsk := ""
    disambiguationType := none
    disambiguationItems := []
    knownContacts := []
    lastOperation := none }

/-- The freshly-initialized conversation memory (contactExtractor.ts lines 488-505). -/
def defaultMemory : ConversationMemory :=
  { summary := ""
    recentMessages := []
    messageCount := 0
    maxMessages := 10
    structuredContext := defaultStructuredContext }

/-- Matches `startsWithL needle hay`: `needle` is an initial segment of `hay`. -/
def startsWithL : List Char → List Char → Bool
  | [], _ => true
  | _ :: _, [] => false
  | a :: as, b :: bs => a == b && startsWithL as bs

/-- Containment of `needle` anywhere inside the second list, mirroring
JavaScript `String.prototype.includes`. -/
def containsSub (needle : List Char) : List Char → Bool
  | [] => needle.isEmpty
  | c :: t => startsWithL needle (c :: t) || containsSub needle t

/-- JavaScript `hay.includes(needle)` on strings. -/
def strIncludes (hay needle : String) : Bool :=
  containsSub needle.toList hay.toList

/-- Matches when `needle` is a final segment of `hay`. -/
def endsWithL (needle hay : List Char) : Bool :=
  startsWithL needle.reverse hay.reverse

/-- Emptiness test for JS string truthiness checks, via the character list. -/
def strIsEmpty (s : String) : Bool :=
  s.toList.isEmpty

/-- JavaScript `String.prototype.trim`: strip whitespace at both ends. -/
def strTrim (s : String) : String :=
  String.mk (((s.toList.dropWhile Char.isWhitespace).reverse.dropWhile Char.isWhitespace).reverse)

/-- JavaScript `String.prototype.toLowerCase` on the ASCII range used here. -/
def strLower (s : String) : String :=
  String.mk (s.toList.map Char.toLower)

/-- Builds the JS template string `` `${first} ${last}` `` then `.trim()`. -/
def displayName (first last : String) : String :=
  strTrim (first ++ " " ++ last)

/-- First section of the `forEach` body of `extractStructuredContext`
(contactExtractor.ts lines 532-555): the within-response known-contact upsert.
`now` is `Date.now()`. -/
def upsertKnown (now : Nat) (ctx : NewContext) (input : InputContactSchema) : NewContext :=
  if !strIsEmpty input.first_name || !strIsEmpty input.last_name then
    let contactName := displayName input.first_name input.last_name
    if !strIsEmpty contactName then
      let contactInfo : KnownContact :=
        { name := contactName
          firstName := input.first_name
          lastName := input.last_name
          phone := input.phone
          email := input.email
          lastSeen := some now }
      match ctx.knownContacts.findIdx? (fun c => c.name == contactName) with
      | some i => { ctx with knownContacts := ctx.knownContacts.set i contactInfo }
      | none => { ctx with knownContacts := ctx.knownContacts ++ [contactInfo] }
    else ctx
  else ctx

/-- Second section of the `forEach` body of `extractStructuredContext`
(contactExtractor.ts lines 557-576): disambiguation-type detection by
substring match on the lower-cased question, or staging of pending items. -/
def askUpdate (ask : String) (ctx : NewContext) (input : InputContactSchema) : NewContext :=
  if !strIsEmpty ask then
    let askLower := strLower ask
    if strIncludes askLower "appointment" then
      { ctx with
        disambiguationType := some DisambigType.appointment
        disambiguationItems := input.appointments.map DisambigItem.appt }
    else if strIncludes askLower "task" then
      { ctx with
        disambiguationType := some DisambigType.task
        disambiguationItems := input.tasks.map DisambigItem.task }
    else if strIncludes askLower "contact" then
      { ctx with disambiguationType := some DisambigType.contact }
    else
      { ctx with
        pendingAppointments := input.appointments
        pendingTasks := input.tasks.map (fun t => t.input)
        pendingNotes := input.notes }
  else ctx

/-- The full `forEach` body (contactExtractor.ts lines 529-577): both sections
run in order on `contact.input_contact`. -/
def processContact (ask : String) (now : Nat) (ctx : NewContext) (contact : ContactSchema) :
    NewContext :=
  askUpdate ask (upsertKnown now ctx contact.input_contact) contact.input_contact

/-- Mirrors `extractStructuredContext` (contactExtractor.ts lines 515-581).
`hasAskForMoreInfo: !!x` and `lastAsk: x || ''` collapse to emptiness tests on
the modelled string. -/
def extractStructuredContext (aiResponse : ContactExtractionResponse) (now : Nat) :
    NewContext :=
  let init : NewContext :=
    { pendingAppointments := []
      pendingTasks := []
      pendingNotes := []
      hasAskForMoreInfo := !strIsEmpty aiResponse.ask_for_more_info
      lastAsk := aiResponse.ask_for_more_info
      disambiguationType := none
      disambiguationItems := []
      knownContacts := [] }
  aiResponse.contacts.foldl (processContact aiResponse.ask_for_more_info now) init

/-- Sort key `(c.lastSeen || 0)` used by both lookup helpers. -/
def lastSeenKey (c : KnownContact) : Nat :=
  c.lastSeen.getD 0

/-- Stable insertion of one element into a list sorted descending by
`lastSeenKey`, placing the inserted (earlier) element before equal keys, as
ECMAScript's stable `Array.prototype.sort` does. -/
def insertDesc (a : KnownContact) : List KnownContact → List KnownContact
  | [] => [a]
  | b :: t => if lastSeenKey b ≤ lastSeenKey a then a :: b :: t else b :: insertDesc a t

/-- Stable sort descending by `lastSeenKey`, modelling
`[...ks].sort((a, b) => (b.lastSeen || 0) - (a.lastSeen || 0))`. -/
def sortDesc : List KnownContact → List KnownContact
  | [] => []
  | a :: t => insertDesc a (sortDesc t)

/-- Stable insertion of one element into a list sorted ascending by
`lastSeenKey`; counterpart of `insertDesc`. -/
def insertAsc (a : KnownContact) : List KnownContact → List KnownContact
  | [] => [a]
  | b :: t => if lastSeenKey a ≤ lastSeenKey b then a :: b :: t else b :: insertAsc a t

/-- Stable sort ascending by `lastSeenKey`, modelling
`[...ks].sort((a, b) => (a.lastSeen || 0) - (b.lastSeen || 0))`. -/
def sortAsc : List KnownContact → List KnownContact
  | [] => []
  | a :: t => insertAsc a (sortAsc t)

/-- Mirrors `getMostRecentContact` (contactExtractor.ts lines 586-592). -/
def getMostRecentContact (knownContacts : List KnownContact) : Option String :=
  if knownContacts.isEmpty then none
  else ((sortDesc knownContacts).head?).map (fun c => c.name)

/-- Mirrors `getFirstContact` (contactExtractor.ts lines 597-603). -/
def getFirstContact (knownContacts : List KnownContact) : Option String :=
  if knownContacts.isEmpty then none
  else ((sortAsc knownContacts).head?).map (fun c => c.name)

/-- One step of the known-contact merge loop (contactExtractor.ts lines
646-653): append the incoming contact only when no stored entry has the same
`name` and the name is non-empty; a matching entry is left untouched. -/
def mergeKnownStep (ks : List KnownContact) (c : KnownContact) : List KnownContact :=
  if ks.any (fun e => e.name == c.name) || strIsEmpty c.name then ks else ks ++ [c]

/-- Mirrors `mergeStructuredContext` (contactExtractor.ts lines 608-655) as a
pure function on the memory value. The `!memory.structuredContext` guard of
the source cannot fire in this model because the field is always present. -/
def mergeStructuredContext (memory : ConversationMemory) (newContext : NewContext) :
    ConversationMemory :=
  let sc := memory.structuredContext
  let sc :=
    if newContext.hasAskForMoreInfo then
      { sc with
        pendingAppointments := newContext.pendingAppointments
        pendingTasks := newContext.pendingTasks
        pendingNotes := newContext.pendingNotes
        disambiguationType := newContext.disambiguationType
        disambiguationItems := newContext.disambiguationItems
        hasAskForMoreInfo := true
        lastAsk := newContext.lastAsk }
    else
      { sc with
        pendingAppointments := []
        pendingTasks := []
        pendingNotes := []
        disambiguationType := none
        disambiguationItems := []
        hasAskForMoreInfo := false
        lastAsk := "" }
  let sc := { sc with knownContacts := newContext.knownContacts.foldl mergeKnownStep sc.knownContacts }
  { memory with structuredContext := sc }

/-- The in-memory `conversationMemories` record: an insertion-ordered
association list with unique keys. -/
abbrev SessionStore : Type :=
  List (String × ConversationMemory)

/-- Lookup of a session key in the store. -/
def lookupStore (store : SessionStore) (key : String) : Option ConversationMemory :=
  match store with
  | [] => none
  | (k, m) :: t => if k == key then some m else lookupStore t key

/-- Overwrite (or create) the value stored under a key, keeping key order. -/
def setStore (store : SessionStore) (key : String) (m : ConversationMemory) : SessionStore :=
  match store with
  | [] => [(key, m)]
  | (k, m') :: t => if k == key then (k, m) :: t else (k, m') :: setStore t key m

/-- Mirrors `getConversationMemory` (contactExtractor.ts lines 487-510): the
returned store reflects the create-on-first-use mutation of the record. -/
def getConversationMemory (store : SessionStore) (sessionId : String) :
    ConversationMemory × SessionStore :=
  match lookupStore store sessionId with
  | some m => (m, store)
  | none => (defaultMemory, store ++ [(sessionId, defaultMemory)])

/-- Mirrors `clearChatHistory` (contactExtractor.ts lines 838-847) restricted
to the conversation-memory record (the token-stats record is outside the
modelled state). -/
def clearChatHistory (store : SessionStore) (sessionId : String) : SessionStore :=
  store.filter (fun p => !(p.1 == sessionId))

/-- Mirrors `getActiveSessions` (contactExtractor.ts lines 853-855):
`Object.keys` in insertion order. -/
def getActiveSessions (store : SessionStore) : List String :=
  store.map (fun p => p.1)

/-- Mirrors `loadConversationMemory` (contactExtractor.ts lines 793-806). -/
def loadConversationMemory (memory : ConversationMemory) : List BaseMsg :=
  (if strIsEmpty memory.summary then []
   else [BaseMsg.system ("Conversation summary: " ++ memory.summary)]) ++
  memory.recentMessages

/-- Mirrors `saveConversationToMemory` (contactExtractor.ts lines 744-790) on
the memory value. `summaryOracle` stands for the result of the external
`summarizeConversation` call (including its internal error fallback). -/
def saveConversationToMemory (memory : ConversationMemory) (userMessage : String)
    (aiResponse : ContactExtractionResponse) (now : Nat) (summaryOracle : String) :
    ConversationMemory :=
  let newContext := extractStructuredContext aiResponse now
  let memory := mergeStructuredContext memory newContext
  let memory :=
    { memory with
      recentMessages := memory.recentMessages ++ [BaseMsg.human userMessage, BaseMsg.ai aiResponse]
      messageCount := memory.messageCount + 2 }
  if memory.maxMessages < memory.recentMessages.length then
    let recent := memory.recentMessages.drop (memory.recentMessages.length - 4)
    let oldSummary := if strIsEmpty memory.summary then "" else "Previous summary: " ++ memory.summary ++ "\n\n"
    { memory with summary := oldSummary ++ summaryOracle, recentMessages := recent }
  else memory

/-- Normalization of one `input_contact` in the post-processing step
(contactExtractor.ts lines 1065-1087). -/
def normalizeInputContact (input : InputContactSchema) : InputContactSchema :=
  let intent := if (["add", "update", "list"] : List String).contains input.intent then input.intent else "list"
  let operation := if intent == "add" then "add" else if intent == "update" then "update" else "list"
  { input with
    intent := intent
    operation := operation
    validations := some (input.validations.getD { missing_fields := [], invalid_fields := [] }) }

/-- Normalization of one contact wrapper (contactExtractor.ts lines 1059-1100). -/
def normalizeContact (contact : ContactSchema) : ContactSchema :=
  { contact with
    approved := some (contact.approved.getD false)
    input_contact := normalizeInputContact contact.input_contact }

/-- The whole post-processing pass over `parsedData.contacts`. -/
def normalizeResponse (r : ContactExtractionResponse) : ContactExtractionResponse :=
  { r with contacts := r.contacts.map normalizeContact }

/-- The safe fallback result returned from the catch block
(contactExtractor.ts lines 1103-1135). -/
def fallbackResponse : ContactExtractionResponse :=
  { contacts :=
      [{ input_contact :=
           { id := "temp_1"
             first_name := ""
             last_name := ""
             phone := ""
             email := ""
             stage := "Lead"
             source := "sumiAgent"
             intent := "list"
             operation := "list"
             notes := []
             tasks := []
             appointments := []
             validations := some { missing_fields := [], invalid_fields := [] } }
         update_contact :=
           { first_name := none, last_name := none, phone := none, email := none, stage := none }
         approved := some false }]
    language := "english"
    skip_to := ""
    ask_for_more_info := "" }

/-- Outcome of the awaited external LLM extraction call: either the promise
rejects (any thrown error inside the `try` block) or it resolves to a parsed
response value. -/
inductive ExtractOutcome where
  | failure
  | success (r : ContactExtractionResponse)

/-- Mirrors the per-turn entry point `extractContactsWithLLM`
(contactExtractor.ts lines 894-1136) at the level of the session store: load
or create the conversation memory, run the external call, and either return
the fallback with no further state change (catch block) or save the raw
response into memory and return the normalized response. Note the source
saves `JSON.stringify(parsedData)` before the in-place post-processing runs,
so the stored context is computed from the raw response while the caller gets
the normalized one. Prompt construction and timezone handling produce only
strings fed to the external call and are not part of the state model. -/
def extractContactsWithLLM (store : SessionStore) (query : String) (userId : String)
    (outcome : ExtractOutcome) (now : Nat) (summaryOracle : String) :
    ContactExtractionResponse × SessionStore :=
  let loaded := getConversationMemory store userId
  match outcome with
  | ExtractOutcome.failure => (fallbackResponse, loaded.2)
  | ExtractOutcome.success parsed =>
      let memory := saveConversationToMemory loaded.1 query parsed now summaryOracle
      (normalizeResponse parsed, setStore loaded.2 userId memory)

/-- A `get` on the store in the sense of the spec's Session Store contract:
the stored value, or the freshly-initialized default for an unknown key. -/
def getMem (store : SessionStore) (key : String) : ConversationMemory :=
  (lookupStore store key).getD defaultMemory

/-- The street-fragment markers checked by the address filter
(contactExtractor.ts lines 113-121), in source order. -/
def addressTokens : List String :=
  ["Ave", "St", "Rd", "Blvd", "Dr", "Way", "Ln"]

/-- The address filter of lines 113-123: the candidate is dropped when it
contains one of the markers anywhere as a substring (`String.includes`). -/
def looksLikeAddress (candidate : String) : Bool :=
  addressTokens.any (fun s => strIncludes candidate s)

/-- Matching of the regex `[A-Z][a-z]+(?:\.)? [A-Z][a-z]+` anchored at the
start of the character list, returning the matched characters. The greedy
`[a-z]+` runs need no backtracking because a relinquished lowercase letter
could never satisfy the following `\.`, space, or `[A-Z]` position. -/
def matchPairAt : List Char → Option (List Char)
  | [] => none
  | c1 :: rest =>
    if c1.isUpper then
      let low1 := rest.takeWhile Char.isLower
      let rest1 := rest.dropWhile Char.isLower
      if low1.isEmpty then none
      else
        let dotPart := if rest1.head? == some '.' then ['.'] else []
        let rest2 := if rest1.head? == some '.' then rest1.tail else rest1
        match rest2 with
        | ' ' :: c2 :: rest4 =>
          if c2.isUpper then
            let low2 := rest4.takeWhile Char.isLower
            if low2.isEmpty then none
            else some (c1 :: low1 ++ dotPart ++ [' ', c2] ++ low2)
          else none
        | _ => none
    else none

/-- Leftmost match of the name-pair regex over the whole text, as
`query.match(/([A-Z][a-z]+(?:\.)? [A-Z][a-z]+)/)` finds it. -/
def findNamePair : List Char → Option String
  | [] => none
  | c :: t =>
    match matchPairAt (c :: t) with
    | some m => some (String.mk m)
    | none => findNamePair t

/-- The `currentQueryContact` computation (contactExtractor.ts lines 109-123):
the first capitalized word pair of the query, dropped when the address filter
fires. -/
def extractNameCandidate (query : String) : Option String :=
  match findNamePair query.toList with
  | none => none
  | some cand => if looksLikeAddress cand then none else some cand

/-- Split of a character list on single spaces; every marked boundary starts a
new (possibly empty) token. -/
def splitSp : List Char → List (List Char)
  | [] => [[]]
  | c :: t =>
    let rest := splitSp t
    if c == ' ' then [] :: rest
    else
      match rest with
      | [] => [[c]]
      | h :: t2 => (c :: h) :: t2

/-- Modelled from the spec: a candidate counts as a street-address fragment
exactly when one of its space-separated tokens ends in a known street suffix
("Ave"/"St"/"Rd"/"Blvd"/"Dr"/"Way"/"Ln"). Stated for comparison against the
source's substring-containment filter `looksLikeAddress`. -/
def specTokenEndsInStreetSuffix (candidate : String) : Bool :=
  (splitSp candidate.toList).any
    (fun tok => addressTokens.any (fun s => endsWithL s.toList tok))

/-- Concrete input contact with every extraction field empty except the
defaults the prompt prescribes. -/
def emptyInputContact : InputContactSchema :=
  { id := "temp_contact_1"
    first_name := ""
    last_name := ""
    phone := ""
    email := ""
    stage := "Lead"
    source := "sumiAgent"
    intent := "list"
    operation := "list"
    notes := []
    tasks := []
    appointments := []
    validations := some { missing_fields := [], invalid_fields := [] } }

/-- An all-`none` update block. -/
def emptyUpdateContact : UpdateContactSchema :=
  { first_name := none, last_name := none, phone := none, email := none, stage := none }

/-- A response that only asks a question and carries no contacts. -/
def askOnlyResponse : ContactExtractionResponse :=
  { contacts := []
    language := "english"
    skip_to := ""
    ask_for_more_info := "Please provide more details" }

/-- Two concrete staged appointments. -/
def apptA : AppointmentSchema :=
  { title := "Showing at 789 Pine Ave"
    description := ""
    intent := "add"
    id := "temp_appt_1"
    start := "2023-10-07T10:00:00Z"
    endTime := "2023-10-07T10:30:00Z"
    location := "789 Pine Ave"
    type := "Showing"
    appointment_type_id := 0
    host_user_id := none }

/-- Second staged appointment, distinct from `apptA`. -/
def apptB : AppointmentSchema :=
  { title := "Showing at 321 Elm St"
    description := ""
    intent := "add"
    id := "temp_appt_2"
    start := "2023-10-08T14:00:00Z"
    endTime := "2023-10-08T14:30:00Z"
    location := "321 Elm St"
    type := "Showing"
    appointment_type_id := 0
    host_user_id := none }

/-- A session state holding two staged appointments and an outstanding
question, as after the first turn of the deferred-attach scenario. -/
def pendingMemory : ConversationMemory :=
  { defaultMemory with
    structuredContext :=
      { defaultStructuredContext with
        pendingAppointments := [apptA, apptB]
        hasAskForMoreInfo := true
        lastAsk := "Please provide contact details (name, phone, or email) to link these activities." } }

/-- Store for the deferred-attach counterexample: one session holding
`pendingMemory`. -/
def storeC3 : SessionStore :=
  [("u", pendingMemory)]

/-- Extraction result of a turn that resolves Sarah Williams with no
appointments of its own and no further question. -/
def sarahResponse : ContactExtractionResponse :=
  { contacts :=
      [{ input_contact :=
           { emptyInputContact with first_name := "Sarah", last_name := "Williams" }
         update_contact := emptyUpdateContact
         approved := some false }]
    language := "english"
    skip_to := ""
    ask_for_more_info := "" }

/-- Stored registry entry for the upsert counterexample. -/
def sarahOld : KnownContact :=
  { name := "Sarah Williams"
    firstName := "Sarah"
    lastName := "Williams"
    phone := "5551234"
    email := ""
    lastSeen := some 1 }

/-- A session state already knowing `sarahOld`. -/
def sarahMemory : ConversationMemory :=
  { defaultMemory with
    structuredContext := { defaultStructuredContext with knownContacts := [sarahOld] } }

/-- Extraction result re-mentioning Sarah Williams with a new non-empty phone
and email. -/
def sarahAgainResponse : ContactExtractionResponse :=
  { contacts :=
      [{ input_contact :=
           { emptyInputContact with
             first_name := "Sarah"
             last_name := "Williams"
             phone := "9999888"
             email := "sarah@example.com" }
         update_contact := emptyUpdateContact
         approved := some false }]
    language := "english"
    skip_to := ""
    ask_for_more_info := "" }

/-- Registry entries with equal `lastSeen`, for the tie-break counterexample. -/
def tieA : KnownContact :=
  { name := "Alice Adams", firstName := "Alice", lastName := "Adams"
    phone := "", email := "", lastSeen := some 5 }

/-- Second entry of the tie, inserted after `tieA`. -/
def tieB : KnownContact :=
  { name := "Bella Brown", firstName := "Bella", lastName := "Brown"
    phone := "", email := "", lastSeen := some 5 }

/-- Registry used by the extrema witness: John before Sarah, Sarah more
recent, as in the spec's most-recent-precedence example. -/
def johnSarah : List KnownContact :=
  [{ name := "John Smith", firstName := "John", lastName := "Smith"
     phone := "", email := "", lastSeen := some 1 },
   { name := "Sarah Williams", firstName := "Sarah", lastName := "Williams"
     phone := "", email := "", lastSeen := some 5 }]

/-- Store for the empty-shell counterexample: one session knowing Sarah. -/
def storeC7 : SessionStore :=
  [("u", sarahMemory)]

/-- Extraction result consisting of a single empty-shell contact. -/
def emptyShellResponse : ContactExtractionResponse :=
  { contacts :=
      [{ input_contact := emptyInputContact
         update_contact := emptyUpdateContact
         approved := some false }]
    language := "english"
    skip_to := ""
    ask_for_more_info := "" }

theorem lookupStore_setStore_self (s : SessionStore) (k : String) (m : ConversationMemory) :
    lookupStore (setStore s k m) k = some m := by
  induction s with
  | nil => simp [setStore, lookupStore]
  | cons p t ih =>
    obtain ⟨k1, m1⟩ := p
    by_cases h : (k1 == k) = true
    · simp [setStore, lookupStore, h]
    · simp [setStore, lookupStore, h, ih]

theorem lookupStore_append_none (s : SessionStore) (k : String) (m : ConversationMemory)
    (h : lookupStore s k = none) : lookupStore (s ++ [(k, m)]) k = some m := by
  induction s with
  | nil => simp [lookupStore]
  | cons p t ih =>
    obtain ⟨k1, m1⟩ := p
    by_cases hk : (k1 == k) = true
    · simp [lookupStore, hk] at h
    · simp [lookupStore, hk] at h ⊢
      exact ih h

theorem lookupStore_clear_none (s : SessionStore) (k : String) :
    lookupStore (clearChatHistory s k) k = none := by
  induction s with
  | nil => simp [clearChatHistory, lookupStore]
  | cons p t ih =>
    obtain ⟨k1, m1⟩ := p
    by_cases hk : (k1 == k) = true
    · simpa [clearChatHistory, lookupStore, hk] using ih
    · simpa [clearChatHistory, lookupStore, hk] using ih

/-- C1: if the external extraction call fails (or its result cannot be
decoded into the structured shape), the per-turn function returns the safe
fallback result — exactly one contact with empty name/phone/email fields,
intent and operation `"list"`, empty notes/tasks/appointments, `approved`
false, as spelled out by `fallbackResponse` — and the conversation state
obtained for the session afterwards (summary, recentMessages, messageCount,
structuredContext) equals its pre-turn value. -/
theorem extraction_failure_is_noop (store : SessionStore) (query userId : String)
    (now : Nat) (summaryOracle : String) :
    (extractContactsWithLLM store query userId ExtractOutcome.failure now summaryOracle).1
      = fallbackResponse ∧
    getMem (extractContactsWithLLM store query userId ExtractOutcome.failure now summaryOracle).2 userId
      = getMem store userId := by
  refine ⟨rfl, ?_⟩
  unfold extractContactsWithLLM getConversationMemory
  cases h : lookupStore store userId with
  | some m => simp [h, getMem]
  | none => simp [h, getMem, lookupStore_append_none store userId defaultMemory h]

/-- C9: `clearChatHistory` (the reset) followed by a `get` of the same key
yields the freshly-initialized empty conversation state, and a `get` on a key
never stored also yields that same default instead of failing. -/
theorem reset_then_get_default (store : SessionStore) (key : String) :
    getMem (clearChatHistory store key) key = defaultMemory ∧
    (lookupStore store key = none → getMem store key = defaultMemory) := by
  constructor
  · simp [getMem, lookupStore_clear_none]
  · intro h
    simp [getMem, h]

/-- Witness for C9 at a concrete store: resetting the only session and
reading an unknown key both give the default state. -/
theorem reset_then_get_default_witness :
    getMem (clearChatHistory [("s", pendingMemory)] "s") "s" = defaultMemory ∧
    getMem ([("s", pendingMemory)] : SessionStore) "u" = defaultMemory :=
  ⟨(reset_then_get_default [("s", pendingMemory)] "s").1,
   (reset_then_get_default [("s", pendingMemory)] "u").2 (by decide)⟩

/-- C10: a failed first turn still creates and retains the empty conversation
memory for a previously unknown session key (it is created on load, before
the external call), so the key shows up in `getActiveSessions` afterwards. -/
theorem failed_first_turn_creates_memory (store : SessionStore) (key query : String)
    (now : Nat) (summaryOracle : String) (h : lookupStore store key = none) :
    lookupStore (extractContactsWithLLM store query key ExtractOutcome.failure now summaryOracle).2 key
      = some defaultMemory ∧
    key ∈ getActiveSessions
      (extractContactsWithLLM store query key ExtractOutcome.failure now summaryOracle).2 := by
  unfold extractContactsWithLLM getConversationMemory
  simp only [h]
  refine ⟨lookupStore_append_none store key defaultMemory h, ?_⟩
  simp [getActiveSessions]

/-- Witness for C10: the empty store gains the key on a failed first turn. -/
theorem failed_first_turn_creates_memory_witness :
    lookupStore (extractContactsWithLLM [] "hello" "u" ExtractOutcome.failure 3 "").2 "u"
      = some defaultMemory ∧
    "u" ∈ getActiveSessions (extractContactsWithLLM [] "hello" "u" ExtractOutcome.failure 3 "").2 :=
  failed_first_turn_creates_memory [] "u" "hello" 3 "" (by rfl)

theorem mergeStructuredContext_fields (memory : ConversationMemory) (ctx : NewContext) :
    (mergeStructuredContext memory ctx).structuredContext.hasAskForMoreInfo
        = ctx.hasAskForMoreInfo ∧
    (mergeStructuredContext memory ctx).structuredContext.lastAsk
        = (if ctx.hasAskForMoreInfo then ctx.lastAsk else "") ∧
    (mergeStructuredContext memory ctx).structuredContext.pendingAppointments
        = (if ctx.hasAskForMoreInfo then ctx.pendingAppointments else []) ∧
    (mergeStructuredContext memory ctx).structuredContext.pendingTasks
        = (if ctx.hasAskForMoreInfo then ctx.pendingTasks else []) ∧
    (mergeStructuredContext memory ctx).structuredContext.pendingNotes
        = (if ctx.hasAskForMoreInfo then ctx.pendingNotes else []) ∧
    (mergeStructuredContext memory ctx).structuredContext.disambiguationType
        = (if ctx.hasAskForMoreInfo then ctx.disambiguationType else none) ∧
    (mergeStructuredContext memory ctx).structuredContext.disambiguationItems
        = (if ctx.hasAskForMoreInfo then ctx.disambiguationItems else []) ∧
    (mergeStructuredContext memory ctx).structuredContext.knownContacts
        = ctx.knownContacts.foldl mergeKnownStep memory.structuredContext.knownContacts := by
  by_cases h : ctx.hasAskForMoreInfo <;>
    simp [mergeStructuredContext, h]

/-- C2 (amended): after any per-turn merge, the outstanding-question flag
mirrors exactly whether the merged turn asked for more information; when it
did not, the question text, the disambiguation fields and every pending list
are cleared. Consequently a set disambiguation or a non-empty pending list
implies a non-empty outstanding question, and the turn that resolves a
contact (whose extraction carries no question) empties all pending lists.
The converse direction of the claimed iff is refuted by a separate
counterexample: a turn may ask a question while staging nothing. -/
theorem merge_ask_pending_coupling (memory : ConversationMemory) (ctx : NewContext) :
    (mergeStructuredContext memory ctx).structuredContext.hasAskForMoreInfo
        = ctx.hasAskForMoreInfo ∧
    (mergeStructuredContext memory ctx).structuredContext.lastAsk
        = (if ctx.hasAskForMoreInfo then ctx.lastAsk else "") ∧
    (mergeStructuredContext memory ctx).structuredContext.pendingAppointments
        = (if ctx.hasAskForMoreInfo then ctx.pendingAppointments else []) ∧
    (mergeStructuredContext memory ctx).structuredContext.pendingTasks
        = (if ctx.hasAskForMoreInfo then ctx.pendingTasks else []) ∧
    (mergeStructuredContext memory ctx).structuredContext.pendingNotes
        = (if ctx.hasAskForMoreInfo then ctx.pendingNotes else []) ∧
    (mergeStructuredContext memory ctx).structuredContext.disambiguationType
        = (if ctx.hasAskForMoreInfo then ctx.disambiguationType else none) ∧
    (mergeStructuredContext memory ctx).structuredContext.disambiguationItems
        = (if ctx.hasAskForMoreInfo then ctx.disambiguationItems else []) := by
  have h := mergeStructuredContext_fields memory ctx
  exact ⟨h.1, h.2.1, h.2.2.1, h.2.2.2.1, h.2.2.2.2.1, h.2.2.2.2.2.1, h.2.2.2.2.2.2.1⟩

/-- C2 counterexample: merging the turn of `askOnlyResponse` (a question with
no contacts) into the empty initial state reaches a state whose outstanding
question is set while the disambiguation field is unset and every pending
list is empty — refuting the claimed iff. -/
theorem merge_ask_pending_coupling_counterexample :
    ¬ ((mergeStructuredContext defaultMemory
          (extractStructuredContext askOnlyResponse 5)).structuredContext.hasAskForMoreInfo = true →
        ((mergeStructuredContext defaultMemory
            (extractStructuredContext askOnlyResponse 5)).structuredContext.disambiguationType ≠ none ∨
         (mergeStructuredContext defaultMemory
            (extractStructuredContext askOnlyResponse 5)).structuredContext.pendingAppointments ≠ [] ∨
         (mergeStructuredContext defaultMemory
            (extractStructuredContext askOnlyResponse 5)).structuredContext.pendingTasks ≠ [] ∨
         (mergeStructuredContext defaultMemory
            (extractStructuredContext askOnlyResponse 5)).structuredContext.pendingNotes ≠ [])) := by
  decide

/-- C4 (amended): when the incoming contact's display name matches an
existing `knownContacts` entry, the per-turn merge leaves the stored list —
hence the matched entry's phone/email/name fields and its `lastSeen` stamp —
completely unchanged (in particular the length is unchanged); only a contact
with a new, non-empty display name is appended, carrying its own `lastSeen`
value (`Date.now()` of the turn). The claimed non-empty-field update and
`lastSeenAt` bump on a match do not happen; a separate counterexample shows
them failing. -/
theorem merge_known_contacts_upsert (memory : ConversationMemory) (ctx : NewContext)
    (c : KnownContact) (hctx : ctx.knownContacts = [c]) :
    ((memory.structuredContext.knownContacts.any (fun e => e.name == c.name)) = true →
      (mergeStructuredContext memory ctx).structuredContext.knownContacts
        = memory.structuredContext.knownContacts) ∧
    ((memory.structuredContext.knownContacts.any (fun e => e.name == c.name)) = false →
      strIsEmpty c.name = false →
      (mergeStructuredContext memory ctx).structuredContext.knownContacts
        = memory.structuredContext.knownContacts ++ [c]) := by
  have h := (mergeStructuredContext_fields memory ctx).2.2.2.2.2.2.2
  rw [hctx] at h
  constructor
  · intro hany
    rw [h]
    simp [mergeKnownStep, hany]
  · intro hany hname
    rw [h]
    simp [mergeKnownStep, hany, hname]

/-- C4 counterexample: re-extracting Sarah Williams with a new non-empty
phone, email and a later timestamp leaves the stored entry with the old
phone `"5551234"` and the old `lastSeen` of 1 — the claimed field update and
`lastSeenAt` bump do not occur. -/
theorem merge_known_contacts_upsert_counterexample :
    (mergeStructuredContext sarahMemory
        (extractStructuredContext sarahAgainResponse 5)).structuredContext.knownContacts
      = [sarahOld] ∧
    sarahOld.phone = "5551234" ∧
    sarahOld.lastSeen = some 1 ∧
    (extractStructuredContext sarahAgainResponse 5).knownContacts.map (fun e => e.phone)
      = ["9999888"] ∧
    (mergeStructuredContext sarahMemory
        (extractStructuredContext sarahAgainResponse 5)).structuredContext.knownContacts.map
        (fun e => e.phone) ≠ ["9999888"] ∧
    (mergeStructuredContext sarahMemory
        (extractStructuredContext sarahAgainResponse 5)).structuredContext.knownContacts.map
        (fun e => e.lastSeen) ≠ [some 5] := by
  decide

/-- Witness for C4 at a concrete state: merging the re-extracted Sarah into
the session that already knows her leaves the registry unchanged. -/
theorem merge_known_contacts_upsert_witness :
    (mergeStructuredContext sarahMemory
        (extractStructuredContext sarahAgainResponse 5)).structuredContext.knownContacts
      = sarahMemory.structuredContext.knownContacts :=
  (merge_known_contacts_upsert sarahMemory (extractStructuredContext sarahAgainResponse 5)
      { name := "Sarah Williams", firstName := "Sarah", lastName := "Williams",
        phone := "9999888", email := "sarah@example.com", lastSeen := some 5 }
      (by decide)).1 (by decide)

theorem upsertKnown_hasAsk (now : Nat) (ctx : NewContext) (input : InputContactSchema) :
    (upsertKnown now ctx input).hasAskForMoreInfo = ctx.hasAskForMoreInfo := by
  simp only [upsertKnown]
  repeat' split
  all_goals rfl

theorem askUpdate_hasAsk (ask : String) (ctx : NewContext) (input : InputContactSchema) :
    (askUpdate ask ctx input).hasAskForMoreInfo = ctx.hasAskForMoreInfo := by
  simp only [askUpdate]
  repeat' split
  all_goals rfl

theorem processContact_hasAsk (ask : String) (now : Nat) (ctx : NewContext) (c : ContactSchema) :
    (processContact ask now ctx c).hasAskForMoreInfo = ctx.hasAskForMoreInfo := by
  simp only [processContact]
  rw [askUpdate_hasAsk, upsertKnown_hasAsk]

theorem foldl_processContact_hasAsk (ask : String) (now : Nat) (l : List ContactSchema) :
    ∀ init : NewContext,
      (l.foldl (processContact ask now) init).hasAskForMoreInfo = init.hasAskForMoreInfo := by
  induction l with
  | nil => intro init; rfl
  | cons c t ih =>
    intro init
    rw [List.foldl_cons, ih, processContact_hasAsk]

theorem extractStructuredContext_hasAsk (r : ContactExtractionResponse) (now : Nat) :
    (extractStructuredContext r now).hasAskForMoreInfo = !strIsEmpty r.ask_for_more_info := by
  simp only [extractStructuredContext]
  rw [foldl_processContact_hasAsk]

theorem saveConversationToMemory_sc (memory : ConversationMemory) (q : String)
    (r : ContactExtractionResponse) (now : Nat) (so : String) :
    (saveConversationToMemory memory q r now so).structuredContext
      = (mergeStructuredContext memory (extractStructuredContext r now)).structuredContext := by
  simp only [saveConversationToMemory]
  split
  all_goals rfl

theorem getMem_after_success (store : SessionStore) (query userId : String)
    (r : ContactExtractionResponse) (now : Nat) (so : String) :
    getMem (extractContactsWithLLM store query userId (ExtractOutcome.success r) now so).2 userId
      = saveConversationToMemory (getConversationMemory store userId).1 query r now so := by
  simp only [extractContactsWithLLM, getMem]
  rw [lookupStore_setStore_self]
  rfl

/-- C3 (amended): the per-turn function performs no attachment of staged
items itself — attachment is delegated to the external extractor through the
prompt's continuation instructions — so the returned result is exactly the
normalized extraction output, whose per-contact appointment lists equal those
of the raw extraction result; the returned Sarah Williams contact carries
`[A, B]` exactly when the extractor put them there. What the code does
guarantee is the second half of the claim: after a turn whose extraction
asks no further question, the stored `pendingAppointments` (and the other
pending lists, the question and its flag) are empty. -/
theorem resolution_turn_clears_pending (store : SessionStore) (query userId : String)
    (r : ContactExtractionResponse) (now : Nat) (summaryOracle : String)
    (h : r.ask_for_more_info = "") :
    (extractContactsWithLLM store query userId (ExtractOutcome.success r) now summaryOracle).1
      = normalizeResponse r ∧
    ((normalizeResponse r).contacts.map (fun c => c.input_contact.appointments)
      = r.contacts.map (fun c => c.input_contact.appointments)) ∧
    ((getMem (extractContactsWithLLM store query userId (ExtractOutcome.success r) now
          summaryOracle).2 userId).structuredContext.pendingAppointments = [] ∧
     (getMem (extractContactsWithLLM store query userId (ExtractOutcome.success r) now
          summaryOracle).2 userId).structuredContext.pendingTasks = [] ∧
     (getMem (extractContactsWithLLM store query userId (ExtractOutcome.success r) now
          summaryOracle).2 userId).structuredContext.pendingNotes = [] ∧
     (getMem (extractContactsWithLLM store query userId (ExtractOutcome.success r) now
          summaryOracle).2 userId).structuredContext.hasAskForMoreInfo = false ∧
     (getMem (extractContactsWithLLM store query userId (ExtractOutcome.success r) now
          summaryOracle).2 userId).structuredContext.lastAsk = "") := by
  have hask : (extractStructuredContext r now).hasAskForMoreInfo = false := by
    rw [extractStructuredContext_hasAsk, h]
    rfl
  have hm := mergeStructuredContext_fields (getConversationMemory store userId).1
      (extractStructuredContext r now)
  rw [hask] at hm
  simp only [if_neg Bool.false_ne_true] at hm
  have hget := getMem_after_success store query userId r now summaryOracle
  refine ⟨rfl, ?_, ?_, ?_, ?_, ?_, ?_⟩
  · simp only [normalizeResponse, List.map_map]
    rfl
  · rw [hget, saveConversationToMemory_sc]
    exact hm.2.2.1
  · rw [hget, saveConversationToMemory_sc]
    exact hm.2.2.2.1
  · rw [hget, saveConversationToMemory_sc]
    exact hm.2.2.2.2.1
  · rw [hget, saveConversationToMemory_sc]
    exact hask ▸ hm.1
  · rw [hget, saveConversationToMemory_sc]
    exact hm.2.1

/-- C3 counterexample: with `pendingAppointments = [apptA, apptB]` and the
question outstanding, a turn whose extraction resolves Sarah Williams with no
appointments of her own returns a Sarah Williams contact whose appointments
list is `[]`, not `[apptA, apptB]` — the code never copies staged items into
the returned result — while the stored pending list does become empty. -/
theorem resolution_turn_clears_pending_counterexample :
    (getMem storeC3 "u").structuredContext.pendingAppointments = [apptA, apptB] ∧
    (getMem storeC3 "u").structuredContext.hasAskForMoreInfo = true ∧
    ((extractContactsWithLLM storeC3 "Sarah Williams" "u" (ExtractOutcome.success sarahResponse) 9
        "").1.contacts.map (fun c => c.input_contact.appointments) = [[]]) ∧
    ((extractContactsWithLLM storeC3 "Sarah Williams" "u" (ExtractOutcome.success sarahResponse) 9
        "").1.contacts.map (fun c => c.input_contact.appointments) ≠ [[apptA, apptB]]) ∧
    (getMem (extractContactsWithLLM storeC3 "Sarah Williams" "u"
        (ExtractOutcome.success sarahResponse) 9 "").2 "u").structuredContext.pendingAppointments
      = [] := by
  decide

/-- Witness for C3 at the deferred-attach state: the post-turn stored pending
list is empty. -/
theorem resolution_turn_clears_pending_witness :
    (getMem (extractContactsWithLLM storeC3 "Sarah Williams" "u"
        (ExtractOutcome.success sarahResponse) 9 "").2 "u").structuredContext.pendingAppointments
      = [] :=
  (resolution_turn_clears_pending storeC3 "Sarah Williams" "u" sarahResponse 9 "" rfl).2.2.1

/-- C5: the post-processing pass maps every contact of the raw result through
`normalizeContact`, and on each contact: the intent is kept when it already
is one of add/update/list and coerced to "list" otherwise (so the normalized
intent always lies in that set); the operation is recomputed from the
normalized intent (add for add, update for update, list otherwise); a
missing `validations` object becomes `{missing_fields: [], invalid_fields: []}`
while a present one is kept; and a missing `approved` flag becomes `false`
while a present one is kept. Totality of these Lean functions reflects that
the normalizer never raises for missing optional fields. -/
theorem normalizer_defaults (r : ContactExtractionResponse) (c : ContactSchema) :
    (normalizeResponse r).contacts = r.contacts.map normalizeContact ∧
    (["add", "update", "list"] : List String).contains
        (normalizeContact c).input_contact.intent = true ∧
    (normalizeContact c).input_contact.intent
      = (if (["add", "update", "list"] : List String).contains c.input_contact.intent
         then c.input_contact.intent else "list") ∧
    (normalizeContact c).input_contact.operation
      = (if (normalizeContact c).input_contact.intent == "add" then "add"
         else if (normalizeContact c).input_contact.intent == "update" then "update"
         else "list") ∧
    (normalizeContact c).input_contact.validations
      = some (c.input_contact.validations.getD { missing_fields := [], invalid_fields := [] }) ∧
    (normalizeContact c).approved = some (c.approved.getD false) := by
  refine ⟨rfl, ?_, rfl, rfl, rfl, rfl⟩
  show (["add", "update", "list"] : List String).contains
      (if (["add", "update", "list"] : List String).contains c.input_contact.intent
       then c.input_contact.intent else "list") = true
  by_cases h : (["add", "update", "list"] : List String).contains c.input_contact.intent = true
  · rw [if_pos h]
    exact h
  · rw [if_neg h]
    rfl

theorem sortDesc_head_characterization :
    ∀ l : List KnownContact, l ≠ [] →
      ∃ c l₁ l₂, (sortDesc l).head? = some c ∧ l = l₁ ++ c :: l₂ ∧
        (∀ x ∈ l₁, lastSeenKey x < lastSeenKey c) ∧ (∀ x ∈ l₂, lastSeenKey x ≤ lastSeenKey c) := by
  intro l
  induction l with
  | nil => intro h; exact absurd rfl h
  | cons a t ih =>
    intro _
    cases t with
    | nil =>
      refine ⟨a, [], [], rfl, rfl, ?_, ?_⟩ <;> simp
    | cons b t2 =>
      obtain ⟨c, l₁, l₂, hhead, hsplit, hbefore, hafter⟩ := ih (by simp)
      cases hs : sortDesc (b :: t2) with
      | nil => rw [hs] at hhead; simp at hhead
      | cons c0 s2 =>
        rw [hs] at hhead
        simp only [List.head?_cons, Option.some.injEq] at hhead
        subst hhead
        have hstep : sortDesc (a :: b :: t2) = insertDesc a (sortDesc (b :: t2)) := rfl
        by_cases hk : lastSeenKey c0 ≤ lastSeenKey a
        · refine ⟨a, [], b :: t2, ?_, rfl, by simp, ?_⟩
          · rw [hstep, hs]
            simp [insertDesc, hk]
          · intro x hx
            rw [hsplit] at hx
            rcases List.mem_append.mp hx with hx1 | hx2
            · exact le_trans (le_of_lt (hbefore x hx1)) hk
            · rcases List.mem_cons.mp hx2 with rfl | hx3
              · exact hk
              · exact le_trans (hafter x hx3) hk
        · have hk2 : lastSeenKey a < lastSeenKey c0 := by omega
          refine ⟨c0, a :: l₁, l₂, ?_, ?_, ?_, hafter⟩
          · rw [hstep, hs]
            simp [insertDesc, hk]
          · rw [hsplit]
            rfl
          · intro x hx
            rcases List.mem_cons.mp hx with rfl | hx1
            · exact hk2
            · exact hbefore x hx1

theorem sortAsc_head_characterization :
    ∀ l : List KnownContact, l ≠ [] →
      ∃ c l₁ l₂, (sortAsc l).head? = some c ∧ l = l₁ ++ c :: l₂ ∧
        (∀ x ∈ l₁, lastSeenKey c < lastSeenKey x) ∧ (∀ x ∈ l₂, lastSeenKey c ≤ lastSeenKey x) := by
  intro l
  induction l with
  | nil => intro h; exact absurd rfl h
  | cons a t ih =>
    intro _
    cases t with
    | nil =>
      refine ⟨a, [], [], rfl, rfl, ?_, ?_⟩ <;> simp
    | cons b t2 =>
      obtain ⟨c, l₁, l₂, hhead, hsplit, hbefore, hafter⟩ := ih (by simp)
      cases hs : sortAsc (b :: t2) with
      | nil => rw [hs] at hhead; simp at hhead
      | cons c0 s2 =>
        rw [hs] at hhead
        simp only [List.head?_cons, Option.some.injEq] at hhead
        subst hhead
        have hstep : sortAsc (a :: b :: t2) = insertAsc a (sortAsc (b :: t2)) := rfl
        by_cases hk : lastSeenKey a ≤ lastSeenKey c0
        · refine ⟨a, [], b :: t2, ?_, rfl, by simp, ?_⟩
          · rw [hstep, hs]
            simp [insertAsc, hk]
          · intro x hx
            rw [hsplit] at hx
            rcases List.mem_append.mp hx with hx1 | hx2
            · exact le_trans hk (le_of_lt (hbefore x hx1))
            · rcases List.mem_cons.mp hx2 with rfl | hx3
              · exact hk
              · exact le_trans hk (hafter x hx3)
        · have hk2 : lastSeenKey c0 < lastSeenKey a := by omega
          refine ⟨c0, a :: l₁, l₂, ?_, ?_, ?_, hafter⟩
          · rw [hstep, hs]
            simp [insertAsc, hk]
          · rw [hsplit]
            rfl
          · intro x hx
            rcases List.mem_cons.mp hx with rfl | hx1
            · exact hk2
            · exact hbefore x hx1

/-- C6 (amended): on an empty registry both lookups return `none`; on a
non-empty registry `getMostRecentContact` returns the name of an entry with
the maximum `lastSeen || 0` whose earlier entries are all strictly smaller —
i.e. the maximum with ties broken by EARLIEST insertion order (the stable
sort keeps the first of equal keys in front), not latest as claimed — and
`getFirstContact` returns the name of an entry with the minimum key, ties
broken by earliest insertion order as claimed. -/
theorem contact_lookup_extrema (ks : List KnownContact) :
    (ks = [] → getMostRecentContact ks = none ∧ getFirstContact ks = none) ∧
    (ks ≠ [] →
      ((∃ c l₁ l₂, getMostRecentContact ks = some c.name ∧ ks = l₁ ++ c :: l₂ ∧
          (∀ x ∈ l₁, lastSeenKey x < lastSeenKey c) ∧
          (∀ x ∈ l₂, lastSeenKey x ≤ lastSeenKey c)) ∧
       (∃ c l₁ l₂, getFirstContact ks = some c.name ∧ ks = l₁ ++ c :: l₂ ∧
          (∀ x ∈ l₁, lastSeenKey c < lastSeenKey x) ∧
          (∀ x ∈ l₂, lastSeenKey c ≤ lastSeenKey x)))) := by
  constructor
  · rintro rfl
    exact ⟨rfl, rfl⟩
  · intro h
    have hne : ks.isEmpty = false := by
      cases ks
      · exact absurd rfl h
      · rfl
    constructor
    · obtain ⟨c, l₁, l₂, hh, hsp, hb, ha⟩ := sortDesc_head_characterization ks h
      exact ⟨c, l₁, l₂, by simp [getMostRecentContact, hne, hh], hsp, hb, ha⟩
    · obtain ⟨c, l₁, l₂, hh, hsp, hb, ha⟩ := sortAsc_head_characterization ks h
      exact ⟨c, l₁, l₂, by simp [getFirstContact, hne, hh], hsp, hb, ha⟩

/-- C6 counterexample: with two entries of equal `lastSeen`,
`getMostRecentContact` returns the earliest-inserted entry `tieA`, not the
latest-inserted `tieB` demanded by the claimed tie-break. -/
theorem contact_lookup_extrema_counterexample :
    getMostRecentContact [tieA, tieB] = some tieA.name ∧
    getMostRecentContact [tieA, tieB] ≠ some tieB.name ∧
    tieA.lastSeen = tieB.lastSeen := by
  decide

/-- Witness for C6 on the John/Sarah registry of the spec's precedence
examples: most-recent resolves to Sarah, first resolves to John. -/
theorem contact_lookup_extrema_witness :
    (∃ c l₁ l₂, getMostRecentContact johnSarah = some c.name ∧ johnSarah = l₁ ++ c :: l₂ ∧
        (∀ x ∈ l₁, lastSeenKey x < lastSeenKey c) ∧
        (∀ x ∈ l₂, lastSeenKey x ≤ lastSeenKey c)) ∧
    (∃ c l₁ l₂, getFirstContact johnSarah = some c.name ∧ johnSarah = l₁ ++ c :: l₂ ∧
        (∀ x ∈ l₁, lastSeenKey c < lastSeenKey x) ∧
        (∀ x ∈ l₂, lastSeenKey c ≤ lastSeenKey x)) :=
  (contact_lookup_extrema johnSarah).2 (by decide)

/-- C7 (amended): the code performs no most-recent substitution and no
empty-shell suppression of its own — those rules exist only as instructions
inside the extraction prompt. The returned result of a successful turn is
exactly the normalized extraction output: same number of contacts, with
name/phone/email identity fields passed through unchanged. Whether a
nameless activity-only turn resolves to the most recent contact therefore
depends entirely on the external extractor; a separate counterexample shows
an empty-shell contact being returned although `knownContacts` is
non-empty. -/
theorem turn_returns_extraction_verbatim (store : SessionStore) (query userId : String)
    (r : ContactExtractionResponse) (now : Nat) (summaryOracle : String) :
    (extractContactsWithLLM store query userId (ExtractOutcome.success r) now summaryOracle).1
      = normalizeResponse r ∧
    ((normalizeResponse r).contacts.map
        (fun c => (c.input_contact.first_name, c.input_contact.last_name,
                   c.input_contact.phone, c.input_contact.email))
      = r.contacts.map
        (fun c => (c.input_contact.first_name, c.input_contact.last_name,
                   c.input_contact.phone, c.input_contact.email))) ∧
    (normalizeResponse r).contacts.length = r.contacts.length := by
  refine ⟨rfl, ?_, ?_⟩
  · simp only [normalizeResponse, List.map_map]
    rfl
  · simp [normalizeResponse]

/-- C7 counterexample: the session knows Sarah Williams, yet a turn whose
extraction result is a single empty-shell contact returns that empty-shell
contact unchanged — the code does not fall back to the most recent known
contact and does not suppress the fabricated empty contact. -/
theorem turn_returns_extraction_verbatim_counterexample :
    (getMem storeC7 "u").structuredContext.knownContacts ≠ [] ∧
    ((extractContactsWithLLM storeC7 "Schedule showing tomorrow at 10am" "u"
        (ExtractOutcome.success emptyShellResponse) 11 "").1.contacts.map
        (fun c => (c.input_contact.first_name, c.input_contact.last_name,
                   c.input_contact.phone, c.input_contact.email))
      = [("", "", "", "")]) := by
  decide

theorem containsSub_nil_needle : ∀ h : List Char, containsSub [] h = true := by
  intro h
  cases h with
  | nil => rfl
  | cons c t => rfl

theorem startsWithL_self_append : ∀ n t : List Char, startsWithL n (n ++ t) = true := by
  intro n
  induction n with
  | nil => intro t; rfl
  | cons a as ih =>
    intro t
    simp [startsWithL, ih]

theorem containsSub_of_parts : ∀ (l n r : List Char), containsSub n (l ++ (n ++ r)) = true := by
  intro l
  induction l with
  | nil =>
    intro n r
    cases n with
    | nil => exact containsSub_nil_needle _
    | cons c t =>
      have h1 := startsWithL_self_append (c :: t) r
      rw [List.cons_append] at h1
      simp [containsSub, h1]
  | cons x l2 ih =>
    intro n r
    simp [containsSub, ih]

theorem exists_of_startsWithL : ∀ {n h : List Char}, startsWithL n h = true → ∃ t, h = n ++ t := by
  intro n
  induction n with
  | nil => intro h _; exact ⟨h, rfl⟩
  | cons a as ih =>
    intro h hs
    cases h with
    | nil => simp [startsWithL] at hs
    | cons b bs =>
      simp only [startsWithL, Bool.and_eq_true, beq_iff_eq] at hs
      obtain ⟨hab, hrest⟩ := hs
      obtain ⟨t, ht⟩ := ih hrest
      subst hab
      exact ⟨t, by simp [ht]⟩

theorem exists_of_endsWithL {s tok : List Char} (h : endsWithL s tok = true) :
    ∃ p, tok = p ++ s := by
  unfold endsWithL at h
  obtain ⟨t, ht⟩ := exists_of_startsWithL h
  refine ⟨t.reverse, ?_⟩
  have h2 := congrArg List.reverse ht
  simpa using h2

theorem splitSp_ne_nil : ∀ cs : List Char, splitSp cs ≠ [] := by
  intro cs
  cases cs with
  | nil => simp [splitSp]
  | cons c t =>
    simp only [splitSp]
    split
    · simp
    · split <;> simp

theorem splitSp_head_pre : ∀ (cs h0 : List Char) (t2 : List (List Char)),
    splitSp cs = h0 :: t2 → ∃ r, cs = h0 ++ r := by
  intro cs
  induction cs with
  | nil =>
    intro h0 t2 h
    simp [splitSp] at h
    exact ⟨[], by simp [← h.1]⟩
  | cons c t ih =>
    intro h0 t2 h
    by_cases hc : (c == ' ') = true
    · simp only [splitSp, hc, if_true] at h
      obtain ⟨h1, _⟩ := List.cons.injEq .. ▸ h
      exact ⟨c :: t, by rw [← h1]; rfl⟩
    · cases hs : splitSp t with
      | nil => exact absurd hs (splitSp_ne_nil t)
      | cons h1 t3 =>
        simp only [splitSp, hc, if_false, Bool.false_eq_true, hs] at h
        obtain ⟨ha, _⟩ := List.cons.injEq .. ▸ h
        obtain ⟨r, hr⟩ := ih h1 t3 hs
        refine ⟨r, ?_⟩
        rw [← ha, hr]
        rfl

theorem mem_splitSp : ∀ (cs tok : List Char), tok ∈ splitSp cs → ∃ l r, cs = l ++ (tok ++ r) := by
  intro cs
  induction cs with
  | nil =>
    intro tok h
    simp [splitSp] at h
    subst h
    exact ⟨[], [], rfl⟩
  | cons c t ih =>
    intro tok h
    by_cases hc : (c == ' ') = true
    · simp only [splitSp, hc, if_true] at h
      rcases List.mem_cons.mp h with rfl | h2
      · exact ⟨[], c :: t, rfl⟩
      · obtain ⟨l, r, hlr⟩ := ih tok h2
        exact ⟨c :: l, r, by rw [hlr]; rfl⟩
    · cases hs : splitSp t with
      | nil => exact absurd hs (splitSp_ne_nil t)
      | cons h1 t3 =>
        simp only [splitSp, hc, if_false, Bool.false_eq_true, hs] at h
        rcases List.mem_cons.mp h with rfl | h2
        · obtain ⟨r, hr⟩ := splitSp_head_pre t h1 t3 hs
          exact ⟨[], r, by rw [hr]; rfl⟩
        · have h3 : tok ∈ splitSp t := by
            rw [hs]
            exact List.mem_cons_of_mem _ h2
          obtain ⟨l, r, hlr⟩ := ih tok h3
          exact ⟨c :: l, r, by rw [hlr]; rfl⟩

theorem specToken_implies_looksLike (cand : String) :
    specTokenEndsInStreetSuffix cand = true → looksLikeAddress cand = true := by
  intro h
  unfold specTokenEndsInStreetSuffix at h
  rw [List.any_eq_true] at h
  obtain ⟨tok, htok, h2⟩ := h
  rw [List.any_eq_true] at h2
  obtain ⟨s, hs, hend⟩ := h2
  obtain ⟨p, hp⟩ := exists_of_endsWithL hend
  obtain ⟨l, r, hlr⟩ := mem_splitSp cand.toList tok htok
  unfold looksLikeAddress
  rw [List.any_eq_true]
  refine ⟨s, hs, ?_⟩
  unfold strIncludes
  rw [hlr, hp]
  have h3 := containsSub_of_parts (l ++ p) s.toList r
  simpa [List.append_assoc] using h3

/-- C8 (amended): the filter drops a matched capitalized word pair exactly
when the candidate CONTAINS one of the street markers anywhere as a
substring (`String.includes`), not only when a token ends in one. Since a
token-final marker is in particular a substring, every genuine address
fragment ("Pine Ave", "Elm St", ...) is rejected as claimed; but the claim's
second half fails, because candidates merely containing a marker — such as
"Stella Jones", which contains "St" — are rejected too (separate
counterexample). -/
theorem name_candidate_address_filter (q cand : String)
    (h : findNamePair q.toList = some cand) :
    (extractNameCandidate q = none ↔ looksLikeAddress cand = true) ∧
    (specTokenEndsInStreetSuffix cand = true → extractNameCandidate q = none) := by
  have hdef : extractNameCandidate q = if looksLikeAddress cand then none else some cand := by
    unfold extractNameCandidate
    rw [h]
  constructor
  · rw [hdef]
    by_cases hl : looksLikeAddress cand = true
    · simp [hl]
    · simp [hl]
  · intro hsp
    rw [hdef, if_pos (specToken_implies_looksLike cand hsp)]

/-- C8 counterexample: "Stella Jones" is matched as the capitalized word
pair, none of its tokens ends in a street marker, yet the filter rejects it
(it contains "St"), so no contact name is extracted — refuting "a candidate
none of whose tokens ends in such a suffix is never excluded". -/
theorem name_candidate_address_filter_counterexample :
    findNamePair ("Stella Jones").toList = some "Stella Jones" ∧
    specTokenEndsInStreetSuffix "Stella Jones" = false ∧
    extractNameCandidate "Stella Jones" = none := by
  decide

/-- Witness for C8 on the candidate "Sarah Williams", which the filter keeps. -/
theorem name_candidate_address_filter_witness :
    (extractNameCandidate "Sarah Williams" = none ↔
      looksLikeAddress "Sarah Williams" = true) ∧
    (specTokenEndsInStreetSuffix "Sarah Williams" = true →
      extractNameCandidate "Sarah Williams" = none) :=
  name_candidate_address_filter "Sarah Williams" "Sarah Williams" (by decide)
